import Mathlib

/-!
Shallow embedding of the manifest-driven resource acquisition and
launch-configuration engine of the tauri-mc-launcher repository
(src/src-tauri/src/web_services/resources.rs,
 src/src-tauri/src/web_services/downloader.rs,
 src/src-tauri/src/state/resource_manager.rs),
with theorems settling the frozen claims about it.

Modelling conventions:
- Rust machine behaviour that aborts (panic-family macros and
  out-of-bounds string slicing) is modelled with the error side of
  an Except value, the RustPanic type below.
- Byte buffers fetched over the network are modelled as Lean Strings;
  the SHA1 digest is modelled as an abstract function parameter
  (the digest algorithm itself is out of scope per the spec).
- Filesystem paths are Strings and Path::join is modelled as
  appending a slash and the component, matching Rust join with
  relative components.
- Monadic binds on Except in the source (the ? operator) are written
  as explicit matches, which is definitionally the same thing.
-/

/-- Outcome of a Rust abort (unimplemented / unreachable / slice panic). -/
inductive RustPanic : Type where
  | panicked : RustPanic
deriving DecidableEq

/-- Mirror of enum DownloadError in downloader.rs (lines 16-21). -/
inductive DownloadError : Type where
  | requestError (e : String)
  | fileWriteError (e : String)
  | invalidFileHashError (e : String)
deriving DecidableEq

/-- Mirror of enum ManifestError in resource_manager.rs (lines 30-39). -/
inductive ManifestError : Type where
  | httpError (e : String)
  | serializationFilesystemError (e : String)
  | utf8DeserializationError (e : String)
  | jsonSerializationError (e : String)
  | versionRetrievalError (e : String)
  | resourceError (e : String)
  | invalidFileDownload (e : String)
deriving DecidableEq

/-- Modelled from the spec: the manifest module (web_services::manifest::vanilla)
is not under src/; per spec section 3, a Rule predicate is either an
OS-name/arch/version condition set or a feature-flag condition.  The OS
condition set is iterated as key/value pairs (a HashMap in the source). -/
inductive RuleType : Type where
  | features (feature_rules : List (String × Bool))
  | operatingSystem (os_rules : List (String × String))
deriving DecidableEq

/-- Modelled from the spec: Rule carries an action string ("allow"/"disallow")
and an optional predicate, per spec section 3 and the match in
resources.rs rule_matches (lines 42-86). -/
structure Rule : Type where
  action : String
  rule_type : Option RuleType
deriving DecidableEq

/-- Modelled from the spec: Argument is either a literal string or a
conditional group of values gated by a rule list (spec section 3). -/
inductive Argument : Type where
  | arg (value : String)
  | conditionalArg (rules : List Rule) (values : List String)
deriving DecidableEq

/-- Modelled from the spec: LaunchArguments holds the JVM and game
argument lists of the per-version manifest (spec section 3). -/
structure LaunchArguments : Type where
  jvm : List Argument
  game : List Argument
deriving DecidableEq

/-- Modelled from the spec: one entry of the top-level version manifest map,
with the fields read by resource_manager.rs (id, url, sha1, version_type). -/
structure VanillaManifestVersion : Type where
  id : String
  url : String
  sha1 : String
  version_type : String
deriving DecidableEq

/-- Modelled from the spec: the top-level version manifest is a mapping of
version id to version metadata (spec section 3); modelled as an
association list. -/
structure VanillaManifest : Type where
  versions : List (String × VanillaManifestVersion)
deriving DecidableEq

/-- Modelled from the spec: the parsed per-version manifest.  Its fields are
immaterial to the claims (it is only produced by parsing); we keep the id. -/
structure VanillaVersion : Type where
  id : String
deriving DecidableEq

/-- Mirror of enum JarType (client/server) used by download_game_jar. -/
inductive JarType : Type where
  | client
  | server
deriving DecidableEq

/-- Modelled from the spec: DownloadMetadata carries a url and sha1 hash
(fields read in resource_manager.rs download_game_jar, lines 475-479). -/
structure DownloadMetadata : Type where
  url : String
  sha1 : String
deriving DecidableEq

/-- The four accessors of the Downloadable trait (downloader.rs lines 35-40),
reified as data: name, url, expected hash, and the destination path
relative to the batch base directory. -/
structure Item : Type where
  name : String
  url : String
  hash : String
  rpath : String
deriving DecidableEq

/-- Path::join for a relative component: base/component. -/
def pathJoin (base component : String) : String :=
  base ++ "/" ++ component

/-- Downloadable::path(base_dir) for an Item. -/
def itemPath (item : Item) (base_dir : String) : String :=
  pathJoin base_dir item.rpath

/-- Modelled from the spec: a java runtime manifest entry is a tagged
variant File / Directory / Link (spec section 3).  File entries carry the
Downloadable data plus the executable flag. -/
inductive JavaRuntimeType : Type where
  | file (f : Item) (executable : Bool)
  | directory (d : String)
  | link (path target : String)
deriving DecidableEq

/-- Loop over the key/value pairs of an OS rule map inside
resources.rs rule_matches (lines 59-77): the flag starts false, a
matching name or arch sub-condition sets it true, a version
sub-condition is skipped, and an unknown key hits unimplemented!. -/
def osRulesFold (os arch : String) : List (String × String) → Bool → Except RustPanic Bool
  | [], acc => .ok acc
  | kv :: rest, acc =>
    if kv.fst = "name" then
      osRulesFold os arch rest (acc || (kv.snd = os || (os = "macos" && kv.snd = "osx")))
    else if kv.fst = "arch" then
      osRulesFold os arch rest (acc || (kv.snd = arch || (kv.snd = "x86" && arch = "x86_64")))
    else if kv.fst = "version" then osRulesFold os arch rest acc
    else .error RustPanic.panicked

/-- Checks if a single rule matches every case, mirroring
resources.rs rule_matches (lines 42-86).  The current platform
(env::consts::OS / env::consts::ARCH) is passed explicitly.
Unknown actions and unknown OS-rule keys hit unimplemented! in the
source, modelled as a RustPanic error.  A Features predicate logs an
error and evaluates to false (lines 52-56). -/
def rule_matches (os arch : String) (rule : Rule) : Except RustPanic Bool :=
  match rule.rule_type with
  | none =>
    if rule.action = "allow" then .ok true
    else if rule.action = "disallow" then .ok false
    else .error .panicked
  | some (RuleType.features _) => .ok false
  | some (RuleType.operatingSystem os_rules) =>
    match osRulesFold os arch os_rules false with
    | .error e => .error e
    | .ok m =>
      if rule.action = "allow" then .ok m
      else if rule.action = "disallow" then .ok (!m)
      else .error .panicked

/-- Loop body of rules_match: the accumulator starts false, is set true
by each matching rule, and the loop returns false at the first
non-matching rule (resources.rs lines 88-98). -/
def rulesMatchGo (os arch : String) : List Rule → Bool → Except RustPanic Bool
  | [], result => .ok result
  | rule :: rest, _ =>
    match rule_matches os arch rule with
    | .error e => .error e
    | .ok true => rulesMatchGo os arch rest true
    | .ok false => .ok false

/-- Mirror of resources.rs rules_match (lines 88-98): result starts false,
each matching rule sets it true, the first non-matching rule returns
false immediately. -/
def rules_match (os arch : String) (rules : List Rule) : Except RustPanic Bool :=
  rulesMatchGo os arch rules false

theorem rulesMatchGo_ok_true (os arch : String) (rules : List Rule) :
    ∀ acc : Bool,
      rulesMatchGo os arch rules acc = .ok true ↔
        (if rules.isEmpty then acc = true
         else ∀ r ∈ rules, rule_matches os arch r = .ok true) := by
  induction rules with
  | nil =>
    intro acc
    simp only [rulesMatchGo, List.isEmpty_nil, if_pos]
    constructor
    · intro h
      cases acc with
      | false => exact absurd h (by simp)
      | true => rfl
    · intro h
      rw [h]
  | cons rule rest ih =>
    intro acc
    simp only [rulesMatchGo, List.isEmpty_cons, if_neg (by simp : ¬(false = true))]
    cases h : rule_matches os arch rule with
    | error e =>
      constructor
      · intro habs; exact absurd habs (by simp)
      · intro habs
        have := habs rule (List.mem_cons_self rule rest)
        rw [h] at this; exact absurd this (by simp)
    | ok m =>
      cases m with
      | false =>
        constructor
        · intro habs; exact absurd habs (by simp)
        · intro habs
          have := habs rule (List.mem_cons_self rule rest)
          rw [h] at this; exact absurd this (by simp)
      | true =>
        rw [ih true]
        cases hrest : rest.isEmpty with
        | true =>
          have : rest = [] := List.isEmpty_iff.mp hrest
          subst this
          simp [h]
        | false =>
          simp only [if_neg (by simp [hrest] : ¬(rest.isEmpty = true))]
          constructor
          · intro hall r hr
            rcases List.mem_cons.mp hr with rfl | hr
            · exact h
            · exact hall r hr
          · intro hall r hr
            exact hall r (List.mem_cons_of_mem rule hr)

/-- Rust str::replace restricted to a nonempty pattern, written with an
explicit fuel argument (one unit per loop step, so the length of the
subject string is always enough fuel): replaces every non-overlapping
occurrence of pat, scanning left to right. -/
def replaceAllFuel (pat rep : List Char) : Nat → List Char → List Char
  | 0, s => s
  | _ + 1, [] => []
  | fuel + 1, c :: rest =>
    if pat ≠ [] ∧ pat.isPrefixOf (c :: rest) then
      rep ++ replaceAllFuel pat rep fuel ((c :: rest).drop pat.length)
    else c :: replaceAllFuel pat rep fuel rest

/-- String-level wrapper for Rust str::replace.  Every call site in the
embedded functions passes a pattern containing a dollar sign, so the
empty-pattern corner of the Rust API is never reached. -/
def strReplace (s pat rep : String) : String :=
  String.mk (replaceAllFuel pat.toList rep.toList s.toList.length s.toList)

/-- Takes the chars covering exactly n bytes of UTF-8, or none when n does
not land on a character boundary (or runs past the end). -/
def takeBytes : List Char → Nat → Option (List Char)
  | _, 0 => some []
  | [], _ + 1 => none
  | c :: rest, n + 1 =>
    if c.utf8Size ≤ n + 1 then
      (takeBytes rest (n + 1 - c.utf8Size)).map (fun l => c :: l)
    else none

/-- Drops the chars covering exactly n bytes of UTF-8, or none when n does
not land on a character boundary (or runs past the end). -/
def dropBytes : List Char → Nat → Option (List Char)
  | cs, 0 => some cs
  | [], _ + 1 => none
  | c :: rest, n + 1 =>
    if c.utf8Size ≤ n + 1 then dropBytes rest (n + 1 - c.utf8Size) else none

/-- Rust byte slicing s[start..=endIdx] on a UTF-8 string: none models the
panic (start past endIdx + 1, index out of bounds, or an index that is
not a character boundary). -/
def rustSliceInclusive (cs : List Char) (start endIdx : Nat) : Option (List Char) :=
  if endIdx + 1 < start then none
  else
    match dropBytes cs start with
    | none => none
    | some rest => takeBytes rest (endIdx + 1 - start)

/-- Mirror of resources.rs get_arg_substring (lines 238-247): the char
positions of the first dollar sign and the first closing brace are used
as byte indices of an inclusive slice.  The RustPanic side models the
abort when that slice is invalid. -/
def get_arg_substring (arg : String) : Except RustPanic (Option String) :=
  let cs := arg.toList
  match cs.findIdx? (fun c => c == '$'), cs.findIdx? (fun c => c == '\x7d') with
  | some start, some endIdx =>
    match rustSliceInclusive cs start endIdx with
    | some sub => .ok (some (String.mk sub))
    | none => .error .panicked
  | _, _ => .ok none

/-- Modelled from the spec: crate::consts is not under src/; the launcher
identity constants match the ones defined locally in resource_manager.rs
(lines 266-267).  Their values are immaterial to every claim. -/
def LAUNCHER_NAME : String := "Autmc"

/-- Modelled from the spec: see LAUNCHER_NAME. -/
def LAUNCHER_VERSION : String := "1.0.0"

/-- Mirror of resources.rs path_to_utf8_str (lines 343-354).  Lean strings
are always valid unicode, so the invalid-UTF-8 fallback branch of the
source is unrepresentable here and the function is the identity. -/
def path_to_utf8_str (path : String) : String := path

/-- Mirror of struct LaunchArgumentPaths (resources.rs lines 145-151);
logging is the (argument template, config file path) pair. -/
structure LaunchArgumentPaths : Type where
  logging : String × String
  library_paths : List String
  instance_path : String
  jar_path : String
  asset_dir_path : String
deriving DecidableEq

/-- Mirror of resources.rs substitute_jvm_arguments (lines 250-287).  Note
the classpath branch joins the library paths and the jar path with a
hardcoded colon (the FIXME at line 269 records that Windows should use a
semicolon). -/
def substitute_jvm_arguments (arg : String) (argument_paths : LaunchArgumentPaths) :
    Except RustPanic (Option String) :=
  match get_arg_substring arg with
  | .error e => .error e
  | .ok none => .ok none
  | .ok (some substr) =>
    let classpath_strs := argument_paths.library_paths.map path_to_utf8_str
    if substr = "$\x7bnatives_directory\x7d" then
      .ok (some (strReplace arg substr
        (path_to_utf8_str (pathJoin argument_paths.instance_path "natives"))))
    else if substr = "$\x7blauncher_name\x7d" then
      .ok (some (strReplace arg substr LAUNCHER_NAME))
    else if substr = "$\x7blauncher_version\x7d" then
      .ok (some (strReplace arg substr LAUNCHER_VERSION))
    else if substr = "$\x7bclasspath\x7d" then
      .ok (some (strReplace arg substr
        (String.intercalate ":" classpath_strs ++ ":" ++
          path_to_utf8_str argument_paths.jar_path)))
    else .ok none

/-- Mirror of resources.rs substitute_game_arguments (lines 289-319). -/
def substitute_game_arguments (arg : String) (mc_version : VanillaManifestVersion)
    (asset_index : String) (argument_paths : LaunchArgumentPaths) :
    Except RustPanic (Option String) :=
  match get_arg_substring arg with
  | .error e => .error e
  | .ok none => .ok none
  | .ok (some substr) =>
    if substr = "$\x7bversion_name\x7d" then
      .ok (some (strReplace arg substr mc_version.id))
    else if substr = "$\x7bgame_directory\x7d" then
      .ok (some (strReplace arg substr (path_to_utf8_str argument_paths.instance_path)))
    else if substr = "$\x7bassets_root\x7d" then
      .ok (some (strReplace arg substr (path_to_utf8_str argument_paths.asset_dir_path)))
    else if substr = "$\x7bassets_index_name\x7d" then
      .ok (some (strReplace arg substr asset_index))
    else if substr = "$\x7buser_type\x7d" then
      .ok (some (strReplace arg substr "mojang"))
    else if substr = "$\x7bversion_type\x7d" then
      .ok (some (strReplace arg substr mc_version.version_type))
    else .ok none

/-- Inner loop over the value list of a conditional argument group
(resources.rs lines 179-185 and 218-229): each value is substituted and
pushed onto the accumulated argument vector. -/
def substituteValues (subst : String → Except RustPanic (Option String))
    (acc : List String) : List String → Except RustPanic (List String)
  | [] => .ok acc
  | value :: rest =>
    match subst value with
    | .error e => .error e
    | .ok subArg => substituteValues subst (acc ++ [subArg.getD value]) rest

/-- One iteration of the argument loops in resources.rs construct_arguments:
a literal argument is substituted and pushed; a conditional group is
skipped unless its rules match, in which case each value is substituted
and pushed. -/
def processArgument (os arch : String) (subst : String → Except RustPanic (Option String))
    (acc : List String) : Argument → Except RustPanic (List String)
  | .arg value =>
    match subst value with
    | .error e => .error e
    | .ok subArg => .ok (acc ++ [subArg.getD value])
  | .conditionalArg rules values =>
    match rules_match os arch rules with
    | .error e => .error e
    | .ok false => .ok acc
    | .ok true => substituteValues subst acc values

/-- Iterates processArgument over an argument list, threading the
accumulated argument vector. -/
def processArguments (os arch : String)
    (subst : String → Except RustPanic (Option String)) (acc : List String) :
    List Argument → Except RustPanic (List String)
  | [] => .ok acc
  | a :: rest =>
    match processArgument os arch subst acc a with
    | .error e => .error e
    | .ok acc2 => processArguments os arch subst acc2 rest

/-- Mirror of resources.rs construct_arguments (lines 153-235): substituted
JVM arguments are pushed first, then the logging-configuration argument
when its template contains a placeholder (lines 190-197), then the main
class (line 199), then the substituted game arguments. -/
def construct_arguments (os arch : String) (main_class : String)
    (arguments : LaunchArguments) (mc_version : VanillaManifestVersion)
    (asset_index : String) (argument_paths : LaunchArgumentPaths) :
    Except RustPanic (List String) :=
  match processArguments os arch
      (fun v => substitute_jvm_arguments v argument_paths) [] arguments.jvm with
  | .error e => .error e
  | .ok a1 =>
    match get_arg_substring argument_paths.logging.fst with
    | .error e => .error e
    | .ok loggingSub =>
      let a2 := match loggingSub with
        | some substr =>
          a1 ++ [strReplace argument_paths.logging.fst substr
            (path_to_utf8_str argument_paths.logging.snd)]
        | none => a1
      let a3 := a2 ++ [main_class]
      processArguments os arch
        (fun v => substitute_game_arguments v mc_version asset_index argument_paths)
        a3 arguments.game

/-- The substituted JVM arguments alone (first phase of
construct_arguments, started from an empty vector). -/
def jvmArgumentsOf (os arch : String) (arguments : LaunchArguments)
    (argument_paths : LaunchArgumentPaths) : Except RustPanic (List String) :=
  processArguments os arch (fun v => substitute_jvm_arguments v argument_paths) []
    arguments.jvm

/-- The logging-configuration argument alone: one element when the logging
template contains a placeholder, none otherwise. -/
def loggingArgumentOf (argument_paths : LaunchArgumentPaths) :
    Except RustPanic (List String) :=
  match get_arg_substring argument_paths.logging.fst with
  | .error e => .error e
  | .ok (some substr) =>
    .ok [strReplace argument_paths.logging.fst substr
      (path_to_utf8_str argument_paths.logging.snd)]
  | .ok none => .ok []

/-- The substituted game arguments alone (last phase of
construct_arguments, started from an empty vector). -/
def gameArgumentsOf (os arch : String) (arguments : LaunchArguments)
    (mc_version : VanillaManifestVersion) (asset_index : String)
    (argument_paths : LaunchArgumentPaths) : Except RustPanic (List String) :=
  processArguments os arch
    (fun v => substitute_game_arguments v mc_version asset_index argument_paths) []
    arguments.game

deriving instance DecidableEq for Except

/-- Modelled from the spec: the platform path-list separator the classpath
claim refers to; the FIXME at resources.rs line 269 records that Windows
uses a semicolon and Linux a colon. -/
def pathListSeparator (os : String) : String :=
  if os = "windows" then ";" else ":"

theorem rulesMatchGo_first_false (os arch : String) (pre : List Rule) :
    ∀ (acc : Bool) (rule : Rule) (post : List Rule),
      (∀ p ∈ pre, rule_matches os arch p = .ok true) →
      rule_matches os arch rule = .ok false →
      rulesMatchGo os arch (pre ++ rule :: post) acc = .ok false := by
  induction pre with
  | nil =>
    intro acc rule post _ hr
    simp [rulesMatchGo, hr]
  | cons p ps ih =>
    intro acc rule post hpre hr
    have hp : rule_matches os arch p = .ok true := hpre p (List.mem_cons_self p ps)
    simp only [List.cons_append, rulesMatchGo, hp]
    exact ih true rule post (fun q hq => hpre q (List.mem_cons_of_mem p hq)) hr

theorem substituteValues_append (subst : String → Except RustPanic (Option String))
    (values : List String) :
    ∀ acc : List String,
      substituteValues subst acc values =
        (substituteValues subst [] values).map (fun l => acc ++ l) := by
  induction values with
  | nil =>
    intro acc
    simp [substituteValues, Except.map]
  | cons value rest ih =>
    intro acc
    simp only [substituteValues]
    cases h : subst value with
    | error e => simp [Except.map]
    | ok subArg =>
      dsimp only
      rw [ih (acc ++ [subArg.getD value]), List.nil_append, ih ([subArg.getD value])]
      cases substituteValues subst [] rest with
      | error e => simp [Except.map]
      | ok l => simp [Except.map]

theorem processArgument_append (os arch : String)
    (subst : String → Except RustPanic (Option String)) (a : Argument) :
    ∀ acc : List String,
      processArgument os arch subst acc a =
        (processArgument os arch subst [] a).map (fun l => acc ++ l) := by
  intro acc
  cases a with
  | arg value =>
    simp only [processArgument]
    cases subst value with
    | error e => simp [Except.map]
    | ok subArg => simp [Except.map]
  | conditionalArg rules values =>
    simp only [processArgument]
    cases rules_match os arch rules with
    | error e => simp [Except.map]
    | ok m =>
      cases m with
      | false => simp [Except.map]
      | true => exact substituteValues_append subst values acc

theorem processArguments_append (os arch : String)
    (subst : String → Except RustPanic (Option String)) (args : List Argument) :
    ∀ acc : List String,
      processArguments os arch subst acc args =
        (processArguments os arch subst [] args).map (fun l => acc ++ l) := by
  induction args with
  | nil =>
    intro acc
    simp [processArguments, Except.map]
  | cons a rest ih =>
    intro acc
    simp only [processArguments]
    rw [processArgument_append os arch subst a acc]
    cases h : processArgument os arch subst [] a with
    | error e => simp [Except.map]
    | ok d =>
      dsimp only [Except.map]
      rw [ih (acc ++ d), ih d]
      cases processArguments os arch subst [] rest with
      | error e => simp [Except.map]
      | ok l => simp [Except.map]

/-- C1 (counterexample): the claim says the empty rule list evaluates to
true, but rules_match starts its accumulator at false and returns it
unchanged when the loop body never runs, so the empty list evaluates to
false. -/
theorem c1_empty_rules_counterexample :
    rules_match "linux" "x86_64" [] = .ok false ∧
    (Except.ok false : Except RustPanic Bool) ≠ .ok true := by decide

/-- C1 (amended): for every rule list, rules_match/evaluate returns the
logical AND across the list for nonempty lists — it returns false at the
first rule whose directional predicate does not hold and true when the
list is nonempty and every rule matches; the empty rule list evaluates
to false (not true as originally claimed). -/
theorem c1_rules_match_amended (os arch : String) (rules : List Rule) :
    (rules_match os arch rules = .ok true ↔
      rules ≠ [] ∧ ∀ r ∈ rules, rule_matches os arch r = .ok true) ∧
    (∀ (pre : List Rule) (rule : Rule) (post : List Rule),
      rules = pre ++ rule :: post →
      (∀ p ∈ pre, rule_matches os arch p = .ok true) →
      rule_matches os arch rule = .ok false →
      rules_match os arch rules = .ok false) := by
  constructor
  · rw [rules_match, rulesMatchGo_ok_true]
    cases rules with
    | nil => simp
    | cons r rest => simp
  · intro pre rule post heq hpre hr
    rw [rules_match, heq]
    exact rulesMatchGo_first_false os arch pre false rule post hpre hr

/-- C1 (witness): a single disallow-windows rule on a simulated Linux host
makes the list evaluate true, and a disallow rule with no predicate
short-circuits a later list to false. -/
theorem c1_rules_match_witness :
    rules_match "linux" "x86_64"
      [⟨"disallow", some (RuleType.operatingSystem [("name", "windows")])⟩] = .ok true ∧
    rules_match "linux" "x86_64"
      [⟨"allow", none⟩, ⟨"disallow", none⟩, ⟨"allow", none⟩] = .ok false :=
  ⟨(c1_rules_match_amended "linux" "x86_64"
      [⟨"disallow", some (RuleType.operatingSystem [("name", "windows")])⟩]).1.mpr
      ⟨by decide, by decide⟩,
   (c1_rules_match_amended "linux" "x86_64"
      [⟨"allow", none⟩, ⟨"disallow", none⟩, ⟨"allow", none⟩]).2
      [⟨"allow", none⟩] ⟨"disallow", none⟩ [⟨"allow", none⟩] rfl (by decide) (by decide)⟩

/-- C4 (counterexample): with empty JVM and game argument lists and a
logging template containing a placeholder, construct_arguments emits the
logging-configuration argument between the (empty) JVM arguments and the
main class, so the output is not exactly
jvm arguments ++ main class ++ game arguments. -/
theorem c4_logging_argument_counterexample :
    construct_arguments "linux" "x86_64" "Main" ⟨[], []⟩ ⟨"1.20.1", "u", "s", "release"⟩ "5"
      ⟨("-Dlog4j.configurationFile=$\x7bpath\x7d", "/cfg.xml"), [], "inst", "jar", "assets"⟩ =
        .ok ["-Dlog4j.configurationFile=/cfg.xml", "Main"] ∧
    jvmArgumentsOf "linux" "x86_64" ⟨[], []⟩
      ⟨("-Dlog4j.configurationFile=$\x7bpath\x7d", "/cfg.xml"), [], "inst", "jar", "assets"⟩ =
        .ok [] ∧
    gameArgumentsOf "linux" "x86_64" ⟨[], []⟩ ⟨"1.20.1", "u", "s", "release"⟩ "5"
      ⟨("-Dlog4j.configurationFile=$\x7bpath\x7d", "/cfg.xml"), [], "inst", "jar", "assets"⟩ =
        .ok [] ∧
    (["-Dlog4j.configurationFile=/cfg.xml", "Main"] ≠
      ([] : List String) ++ ["Main"] ++ []) := by decide

/-- C4 (amended): construct_arguments returns the substituted JVM
arguments, then the logging-configuration argument whenever the logging
template contains a placeholder, then the main class name, then the
substituted game arguments, in that order (conditional groups included
as whole units only when their rule set is accepted — that gating is
inside processArgument). -/
theorem c4_construct_arguments_order (os arch main_class : String)
    (arguments : LaunchArguments) (mc_version : VanillaManifestVersion)
    (asset_index : String) (argument_paths : LaunchArgumentPaths) :
    construct_arguments os arch main_class arguments mc_version asset_index argument_paths =
      (jvmArgumentsOf os arch arguments argument_paths).bind (fun jvmArgs =>
        (loggingArgumentOf argument_paths).bind (fun loggingArgs =>
          (gameArgumentsOf os arch arguments mc_version asset_index argument_paths).map
            (fun gameArgs => jvmArgs ++ loggingArgs ++ [main_class] ++ gameArgs))) := by
  rw [construct_arguments, jvmArgumentsOf, loggingArgumentOf, gameArgumentsOf]
  cases processArguments os arch
      (fun v => substitute_jvm_arguments v argument_paths) [] arguments.jvm with
  | error e => simp [Except.bind]
  | ok a1 =>
    dsimp only [Except.bind]
    cases get_arg_substring argument_paths.logging.fst with
    | error e => simp [Except.bind]
    | ok loggingSub =>
      cases loggingSub with
      | none =>
        dsimp only [Except.bind]
        rw [processArguments_append os arch
          (fun v => substitute_game_arguments v mc_version asset_index argument_paths)
          arguments.game (a1 ++ [main_class])]
        cases processArguments os arch
            (fun v => substitute_game_arguments v mc_version asset_index argument_paths)
            [] arguments.game with
        | error e => simp [Except.map]
        | ok g => simp [Except.map]
      | some substr =>
        dsimp only [Except.bind]
        rw [processArguments_append os arch
          (fun v => substitute_game_arguments v mc_version asset_index argument_paths)
          arguments.game
          ((a1 ++ [strReplace argument_paths.logging.fst substr
            (path_to_utf8_str argument_paths.logging.snd)]) ++ [main_class])]

/-- C5 (code bug): substituting a classpath placeholder with library paths
a, b and jar path j always joins with a hardcoded colon and appends the
jar path last, producing a:b:j even though the platform path-list
separator on Windows is a semicolon (the FIXME at resources.rs line 269
records exactly this defect). -/
theorem c5_classpath_separator_bug :
    substitute_jvm_arguments "$\x7bclasspath\x7d"
      ⟨("", ""), ["a", "b"], "inst", "j", "assets"⟩ = .ok (some "a:b:j") ∧
    String.intercalate (pathListSeparator "linux") ["a", "b", "j"] = "a:b:j" ∧
    String.intercalate (pathListSeparator "windows") ["a", "b", "j"] = "a;b;j" ∧
    ("a:b:j" : String) ≠ "a;b;j" := by decide

/-- C10 (counterexample): the placeholder scanner is not total — it panics
(modelled as the RustPanic error) on an input whose first closing brace
precedes the first dollar sign by more than one character, and on an
input where a multi-byte character makes the char position of the dollar
sign an invalid byte index. -/
theorem c10_scanner_counterexample :
    get_arg_substring "\x7dab$" = .error RustPanic.panicked ∧
    get_arg_substring "é$\x7bx\x7d" = .error RustPanic.panicked := by decide

/-- C10 (amended): get_arg_substring returns none whenever the argument
lacks a dollar sign or lacks a closing brace (and never panics in that
case), but it is not total: when both are present the char positions are
used as byte indices of an inclusive slice, which panics on inputs such
as the one above. -/
theorem c10_scanner_amended :
    (∀ arg : String,
      (arg.toList.findIdx? (fun c => c == '$') = none ∨
        arg.toList.findIdx? (fun c => c == '\x7d') = none) →
      get_arg_substring arg = .ok none) ∧
    get_arg_substring "\x7dab$" = .error RustPanic.panicked := by
  constructor
  · intro arg h
    rw [get_arg_substring]
    rcases h with h | h
    · rw [h]
    · rw [h]
      cases arg.toList.findIdx? (fun c => c == '$') <;> rfl
  · decide

/-- C10 (witness): a placeholder-free argument is scanned to none without
panicking. -/
theorem c10_scanner_witness : get_arg_substring "plain" = .ok none :=
  c10_scanner_amended.1 "plain" (Or.inl (by decide))

/-- Filesystem state: file contents, existing directories, and created
links, each keyed by absolute path.  Directory creation is modelled as
unconditionally recording the path (create_dir_all on an existing
directory is a no-op in Rust, and re-recording a path does not change
any observation made through existsPath or lookup). -/
structure Fs : Type where
  files : List (String × String)
  dirs : List String
  links : List String
deriving DecidableEq

/-- Path::exists over the modelled state: a file, directory or link is
present at the path. -/
def existsPath (fs : Fs) (p : String) : Bool :=
  (fs.files.lookup p).isSome || fs.dirs.contains p || fs.links.contains p

/-- File::create followed by write_all: records the contents at the path. -/
def addFile (fs : Fs) (p contents : String) : Fs :=
  ⟨(p, contents) :: fs.files, fs.dirs, fs.links⟩

/-- fs::create_dir_all: records the directory path. -/
def addDir (fs : Fs) (p : String) : Fs :=
  ⟨fs.files, p :: fs.dirs, fs.links⟩

/-- fs::hard_link / symlink: records the link destination path. -/
def addLink (fs : Fs) (p : String) : Fs :=
  ⟨fs.files, fs.dirs, p :: fs.links⟩

/-- Path::parent: everything before the final slash-separated component. -/
def parentPath (p : String) : String :=
  String.mk (((p.toList.reverse.dropWhile (fun c => c != '/')).drop 1).reverse)

/-- Observable filesystem/network actions, used to state ordering and
frame properties: pass-1 directory-entry creation, the downloader's
parent-directory creation, a network fetch, an invocation of the
verify-and-persist callback, and a link creation. -/
inductive FsEvent : Type where
  | mkdirEntry (p : String)
  | mkdirParents (p : String)
  | fetched (url : String)
  | callbackRun (name : String)
  | linkCreated (src dest : String)
deriving DecidableEq

/-- Per-item outcome of one download: the result the batch collects, the
callback error that was only logged (downloader.rs lines 119-122), and
the item's events. -/
structure SingleOutcome : Type where
  result : Except DownloadError Unit
  loggedErr : Option DownloadError
  events : List FsEvent
deriving DecidableEq

/-- Mirror of downloader.rs download_single_callback (lines 103-125): when
the destination path already exists nothing at all happens; otherwise
the parent directory is created, the bytes are fetched (a transport
error propagates as RequestError), and the caller-supplied callback is
invoked — its error is logged, not returned. -/
def download_single_callback (net : String → Except String String)
    (callback : String → Item → Fs → Except DownloadError Unit × Fs)
    (base_dir : String) (item : Item) (fs : Fs) : SingleOutcome × Fs :=
  let path := itemPath item base_dir
  if existsPath fs path then (⟨.ok (), none, []⟩, fs)
  else
    let dir_path := parentPath path
    let fs1 := addDir fs dir_path
    match net item.url with
    | .error e =>
      (⟨.error (.requestError e), none, [.mkdirParents dir_path, .fetched item.url]⟩, fs1)
    | .ok bytes =>
      let r := callback bytes item fs1
      (⟨.ok (),
        (match r.fst with | .ok _ => none | .error err => some err),
        [.mkdirParents dir_path, .fetched item.url, .callbackRun item.name]⟩, r.snd)

/-- Sequential interleaving of the bounded-concurrency batch: the spec
fixes no completion order (any order is valid, section 5), so the model
settles items in list order, threading the filesystem. -/
def downloadBatchGo (net : String → Except String String)
    (callback : String → Item → Fs → Except DownloadError Unit × Fs)
    (base_dir : String) : List Item → Fs → List SingleOutcome × Fs
  | [], fs => ([], fs)
  | item :: rest, fs =>
    let s := download_single_callback net callback base_dir item fs
    let b := downloadBatchGo net callback base_dir rest s.snd
    (s.fst :: b.fst, b.snd)

/-- Mirror of downloader.rs download_all_callback (lines 83-101): every
item is settled, the per-item results are collected into a vector, and
the batch as a whole then returns Ok(()) regardless of those results. -/
def download_all_callback (net : String → Except String String)
    (callback : String → Item → Fs → Except DownloadError Unit × Fs)
    (items : List Item) (base_dir : String) (fs : Fs) :
    Except DownloadError Unit × List SingleOutcome × Fs :=
  let b := downloadBatchGo net callback base_dir items fs
  (.ok (), b.fst, b.snd)

/-- Mirror of the verify-and-persist closure passed by download_libraries
(resource_manager.rs lines 435-446): a hash mismatch is an
InvalidFileHashError and nothing is written; otherwise the bytes are
written to the library's destination path. -/
def libraryCallback (hashOf : String → String) (libraries_dir : String)
    (bytes : String) (lib : Item) (fs : Fs) : Except DownloadError Unit × Fs :=
  if hashOf bytes = lib.hash then (.ok (), addFile fs (itemPath lib libraries_dir) bytes)
  else (.error (.invalidFileHashError ("Error downloading " ++ lib.url ++ ", invalid hash.")), fs)

/-- Mirror of the verify-and-persist closure passed by
download_java_from_runtime_manifest (resource_manager.rs lines 562-573);
the executable flag is unused there (TODO at line 571). -/
def javaFileCallback (hashOf : String → String) (base_path : String)
    (bytes : String) (jrt : Item) (fs : Fs) : Except DownloadError Unit × Fs :=
  if hashOf bytes = jrt.hash then (.ok (), addFile fs (itemPath jrt base_path) bytes)
  else (.error (.invalidFileHashError ("Error downloading " ++ jrt.url ++ ", invalid hash.")), fs)

/-- Modelled from the spec: JavaRuntime carries a runtime-manifest
download reference and a version name (fields read at
resource_manager.rs lines 540-541). -/
structure JavaRuntime : Type where
  manifest : DownloadMetadata
  version_name : String
deriving DecidableEq

/-- First pass of resource_manager.rs download_java_from_runtime_manifest
(lines 543-556): iterate the entry list once, creating every Directory
entry immediately and saving File and Link entries for the later
passes. -/
def pass1Partition (base_path : String) :
    List JavaRuntimeType → Fs → List FsEvent × List Item × List (String × String) × Fs
  | [], fs => ([], [], [], fs)
  | jrt :: rest, fs =>
    match jrt with
    | .file f _ =>
      let r := pass1Partition base_path rest fs
      (r.fst, f :: r.snd.fst, r.snd.snd.fst, r.snd.snd.snd)
    | .directory d =>
      let path := pathJoin base_path d
      let r := pass1Partition base_path rest (addDir fs path)
      (.mkdirEntry path :: r.fst, r.snd.fst, r.snd.snd.fst, r.snd.snd.snd)
    | .link p t =>
      let r := pass1Partition base_path rest fs
      (r.fst, r.snd.fst, (p, t) :: r.snd.snd.fst, r.snd.snd.snd)

/-- Third pass of resource_manager.rs download_java_from_runtime_manifest
(lines 578-592): each link whose destination does not already exist has
its target resolved relative to the destination's parent and
canonicalized (a canonicalization failure aborts with the propagated
io error), then a hard link is created. -/
def linksPass (canonicalize : Fs → String → Except String String) (base_path : String) :
    List (String × String) → Fs → Except ManifestError Unit × List FsEvent × Fs
  | [], fs => (.ok (), [], fs)
  | lk :: rest, fs =>
    let dest := pathJoin base_path lk.fst
    if existsPath fs dest then linksPass canonicalize base_path rest fs
    else
      let dir_path := pathJoin (parentPath dest) lk.snd
      match canonicalize fs dir_path with
      | .error e => (.error (.serializationFilesystemError e), [], fs)
      | .ok src =>
        let r := linksPass canonicalize base_path rest (addLink fs dest)
        (r.fst, .linkCreated src dest :: r.snd.fst, r.snd.snd)

/-- Mirror of resource_manager.rs download_java_from_runtime_manifest
(lines 534-596): fetch the runtime manifest (modelled as a parameter,
an http error propagating), then three passes — directories during the
single partition loop, files through download_all_callback with the
java callback, links last.  The returned path mirrors the source's
base_path.join("/bin/java"), which in Rust replaces the whole path
because the joined component is absolute. -/
def download_java_from_runtime_manifest (net : String → Except String String)
    (hashOf : String → String) (canonicalize : Fs → String → Except String String)
    (fetchedManifest : Except String (List JavaRuntimeType))
    (java_dir : String) (manifest : JavaRuntime) (fs : Fs) :
    Except ManifestError String × List FsEvent × Fs :=
  match fetchedManifest with
  | .error e => (.error (.httpError e), [], fs)
  | .ok entries =>
    let base_path := pathJoin java_dir manifest.version_name
    let p1 := pass1Partition base_path entries fs
    let batch := download_all_callback net (javaFileCallback hashOf base_path)
      p1.snd.fst base_path p1.snd.snd.snd
    let evs2 := (batch.snd.fst.map (fun o => o.events)).flatten
    let lp := linksPass canonicalize base_path p1.snd.snd.fst batch.snd.snd
    ((match lp.fst with
      | .error e => .error e
      | .ok _ => .ok "/bin/java"),
      p1.fst ++ evs2 ++ lp.snd.fst, lp.snd.snd)

/-- The ordering rank the materialization claim is about: manifest
directory creation strictly before file downloads, strictly before link
creation. -/
def eventRank : FsEvent → Nat
  | .mkdirEntry _ => 0
  | .mkdirParents _ => 1
  | .fetched _ => 1
  | .callbackRun _ => 1
  | .linkCreated _ _ => 2

/-- The Link entries of a runtime manifest entry list, in order. -/
def linksOfEntries : List JavaRuntimeType → List (String × String)
  | [] => []
  | .link p t :: rest => (p, t) :: linksOfEntries rest
  | _ :: rest => linksOfEntries rest

/-- External world parameters of the manifest client: the network fetch
(transport errors on the error side), the SHA1 hex digest, and the JSON
parse of a per-version manifest body (serde errors on the error side).
Modelling the sub-errors with dedicated carriers mirrors the typed From
conversions of resource_manager.rs (lines 64-86): an io read failure can
only become SerializationFilesystemError, a serde failure only
JsonSerializationError, a transport failure only HttpError. -/
structure World : Type where
  fetch : String → Except String String
  hashOf : String → String
  parseVersion : String → Except String VanillaVersion

/-- Mirror of resource_manager.rs validate_hash (lines 105-110). -/
def validate_hash (w : World) (bytes valid_hash : String) : Bool :=
  w.hashOf bytes == valid_hash

/-- Mirror of resource_manager.rs validate_file_hash (lines 114-126):
false when the path does not exist as a readable file, otherwise the
content hash comparison. -/
def validate_file_hash (w : World) (fs : Fs) (path valid_hash : String) : Bool :=
  match fs.files.lookup path with
  | none => false
  | some bytes => validate_hash w bytes valid_hash

/-- Mirror of struct ResourceManager (resource_manager.rs lines 337-346)
with the directory fields precomputed by new (lines 349-359). -/
structure ResourceManager : Type where
  app_dir : String
  version_dir : String
  libraries_dir : String
  logging_dir : String
  asset_dir : String
  java_dir : String
  vanilla_manifest : Option VanillaManifest

/-- Mirror of ResourceManager::new (resource_manager.rs lines 349-359). -/
def ResourceManager.new (app_dir : String) : ResourceManager :=
  ⟨app_dir, pathJoin app_dir "versions", pathJoin app_dir "libraries",
    pathJoin app_dir "logging", pathJoin app_dir "assets", pathJoin app_dir "java", none⟩

/-- Mirror of ResourceManager::download_manifests (resource_manager.rs
lines 361-370) after a successful fetch: the parsed manifest (passed as
a parameter, the network being outside this function here) is stored. -/
def download_manifests (rm : ResourceManager) (manifest : VanillaManifest) : ResourceManager :=
  ⟨rm.app_dir, rm.version_dir, rm.libraries_dir, rm.logging_dir, rm.asset_dir,
    rm.java_dir, some manifest⟩

/-- Mirror of ResourceManager::get_version_file_path (resource_manager.rs
lines 651-653): version_dir/<version_id>.json. -/
def get_version_file_path (rm : ResourceManager) (version_id : String) : String :=
  pathJoin rm.version_dir (version_id ++ ".json")

/-- The path ResourceManager::serialize_version actually writes to
(resource_manager.rs lines 673-676):
version_dir/<version_id>/<version_id>.json. -/
def serialize_version_path (rm : ResourceManager) (version_id : String) : String :=
  pathJoin (pathJoin rm.version_dir version_id) (version_id ++ ".json")

/-- Mirror of ResourceManager::serialize_version (resource_manager.rs
lines 668-680): creates version_dir and version_dir/<id>, then writes
the bytes to version_dir/<id>/<id>.json. -/
def serialize_version (rm : ResourceManager) (version_id bytes : String) (fs : Fs) : Fs :=
  let fs1 := addDir (addDir fs rm.version_dir) (pathJoin rm.version_dir version_id)
  addFile fs1 (serialize_version_path rm version_id) bytes

/-- Mirror of ResourceManager::deserialize_cached_vanilla_version
(resource_manager.rs lines 656-665): opens version_dir/<id>.json (an
open failure is an io error) and parses it (a parse failure is a serde
error). -/
def deserialize_cached_vanilla_version (rm : ResourceManager) (w : World) (fs : Fs)
    (version_id : String) : Except ManifestError VanillaVersion :=
  let path := pathJoin rm.version_dir (version_id ++ ".json")
  match fs.files.lookup path with
  | none => .error (.serializationFilesystemError ("failed to open " ++ path))
  | some bytes =>
    match w.parseVersion bytes with
    | .error e => .error (.jsonSerializationError e)
    | .ok version => .ok version

/-- Mirror of ResourceManager::download_vanilla_version
(resource_manager.rs lines 388-426).  Note line 404 of the source:
after a fresh fetch it computes validate_hash(&bytes, "") against the
empty string and discards the result, so the fetched body is persisted
and parsed without any verification against the manifest's sha1.
The UTF-8 re-decoding of the fetched bytes (line 410) cannot fail in
the model because the bytes are already a Lean string. -/
def download_vanilla_version (rm : ResourceManager) (w : World) (fs : Fs)
    (version_id : String) : Except ManifestError VanillaVersion × Fs :=
  match rm.vanilla_manifest with
  | none =>
    (.error (.resourceError "Trying to access vanilla manifest but it is not downloaded yet."),
      fs)
  | some manifest =>
    match manifest.versions.lookup version_id with
    | none =>
      (.error (.versionRetrievalError ("Cannot find version with id: " ++ version_id)), fs)
    | some manifest_version =>
      if validate_file_hash w fs (get_version_file_path rm version_id) manifest_version.sha1 then
        (deserialize_cached_vanilla_version rm w fs version_id, fs)
      else
        match w.fetch manifest_version.url with
        | .error e => (.error (.httpError e), fs)
        | .ok bytes =>
          let _ := validate_hash w bytes ""
          let fs1 := serialize_version rm version_id bytes fs
          match w.parseVersion bytes with
          | .error e => (.error (.jsonSerializationError e), fs1)
          | .ok vanilla_version => (.ok vanilla_version, fs1)

/-- Mirror of ResourceManager::download_game_jar (resource_manager.rs
lines 460-492): when the cached jar is missing or its hash mismatches,
the jar is fetched and the fetched bytes are verified against the
download's sha1 — a mismatch is an InvalidFileDownload error and
nothing is written. -/
def download_game_jar (rm : ResourceManager) (w : World) (fs : Fs) (jar_type : JarType)
    (download : DownloadMetadata) (version_id : String) :
    Except ManifestError String × Fs :=
  let jar_str := match jar_type with | .client => "client" | .server => "server"
  let dir_path := pathJoin rm.version_dir version_id
  let fs1 := addDir fs dir_path
  let path := pathJoin dir_path (jar_str ++ ".jar")
  if validate_file_hash w fs1 path download.sha1 then (.ok path, fs1)
  else
    match w.fetch download.url with
    | .error e => (.error (.httpError e), fs1)
    | .ok bytes =>
      if validate_hash w bytes download.sha1 then (.ok path, addFile fs1 path bytes)
      else
        (.error (.invalidFileDownload
          ("Error downloading " ++ version_id ++ " " ++ jar_str ++ " jar, invalid hash.")),
          fs1)

theorem download_vanilla_version_no_vre (rm : ResourceManager) (w : World) (fs : Fs)
    (version_id : String) (manifest : VanillaManifest) (mv : VanillaManifestVersion)
    (h : rm.vanilla_manifest = some manifest)
    (hl : manifest.versions.lookup version_id = some mv) (s : String) :
    (download_vanilla_version rm w fs version_id).fst ≠
      .error (.versionRetrievalError s) := by
  simp only [download_vanilla_version, h, hl]
  split
  · simp only [deserialize_cached_vanilla_version]
    split
    · simp
    · split <;> simp
  · split
    · simp
    · split <;> simp

/-- C2 (code bug): with an empty cache and a loaded manifest expecting
hash S for version 1.20.1, a fetched body whose digest is NOTS (not S)
is accepted: download_vanilla_version returns it parsed instead of an
invalid-download error, because line 404 of resource_manager.rs hashes
against the empty string and discards the result.  The game jar half of
the claim does hold: download_game_jar rejects the same mismatched
bytes with InvalidFileDownload. -/
theorem c2_manifest_body_not_verified :
    ((download_vanilla_version
        (download_manifests (ResourceManager.new "app")
          ⟨[("1.20.1", ⟨"1.20.1", "U", "S", "release"⟩)]⟩)
        ⟨fun _ => .ok "BODY", fun _ => "NOTS", fun _ => .ok ⟨"1.20.1"⟩⟩
        ⟨[], [], []⟩ "1.20.1").fst = .ok ⟨"1.20.1"⟩) ∧
    (((fun _ => "NOTS") : String → String) "BODY" ≠ "S") ∧
    ((download_game_jar (ResourceManager.new "app")
        ⟨fun _ => .ok "BODY", fun _ => "NOTS", fun _ => .ok ⟨"1.20.1"⟩⟩
        ⟨[], [], []⟩ JarType.client ⟨"U", "S"⟩ "1.20.1").fst =
      .error (.invalidFileDownload "Error downloading 1.20.1 client jar, invalid hash.")) := by
  decide

/-- C3 (code bug): serialize_version persists a freshly fetched
per-version manifest at versions/1.20.1/1.20.1.json while
get_version_file_path — the path checked and read back when loading the
cache — is versions/1.20.1.json, so the write path and the read path
disagree and the just-written bytes are invisible at the canonical
cache path. -/
theorem c3_cache_write_read_path_mismatch :
    serialize_version_path (ResourceManager.new "app") "1.20.1" =
      "app/versions/1.20.1/1.20.1.json" ∧
    get_version_file_path (ResourceManager.new "app") "1.20.1" =
      "app/versions/1.20.1.json" ∧
    serialize_version_path (ResourceManager.new "app") "1.20.1" ≠
      get_version_file_path (ResourceManager.new "app") "1.20.1" ∧
    (serialize_version (ResourceManager.new "app") "1.20.1" "BODY" ⟨[], [], []⟩).files.lookup
      (get_version_file_path (ResourceManager.new "app") "1.20.1") = none := by
  decide

/-- C9 (confirmed): download_vanilla_version fails with the
resource-not-ready error whenever the version manifest has not been
loaded, and — once a manifest is loaded — returns a version-not-found
error exactly when the requested id is absent from it. -/
theorem c9_version_not_found_and_not_ready (rm : ResourceManager) (w : World) (fs : Fs)
    (version_id : String) :
    (rm.vanilla_manifest = none →
      (download_vanilla_version rm w fs version_id).fst =
        .error (.resourceError
          "Trying to access vanilla manifest but it is not downloaded yet.")) ∧
    (∀ manifest : VanillaManifest, rm.vanilla_manifest = some manifest →
      ((∃ s, (download_vanilla_version rm w fs version_id).fst =
          .error (.versionRetrievalError s)) ↔
        manifest.versions.lookup version_id = none)) := by
  constructor
  · intro h
    simp only [download_vanilla_version, h]
  · intro manifest h
    cases hl : manifest.versions.lookup version_id with
    | none =>
      constructor
      · intro _
        rfl
      · intro _
        refine ⟨"Cannot find version with id: " ++ version_id, ?_⟩
        simp only [download_vanilla_version, h, hl]
    | some mv =>
      constructor
      · rintro ⟨s, hs⟩
        exact absurd hs (download_vanilla_version_no_vre rm w fs version_id manifest mv h hl s)
      · intro habs
        exact absurd habs (by simp)

/-- C9 (witness): before loading the manifest, requesting 1.20.1 yields
resource-not-ready; with a loaded manifest containing only 1.20.1,
requesting 9.9.9 yields version-not-found. -/
theorem c9_version_errors_witness :
    ((download_vanilla_version (ResourceManager.new "app")
        ⟨fun _ => .ok "BODY", fun _ => "S", fun _ => .ok ⟨"1.20.1"⟩⟩
        ⟨[], [], []⟩ "1.20.1").fst =
      .error (.resourceError
        "Trying to access vanilla manifest but it is not downloaded yet.")) ∧
    (∃ s, (download_vanilla_version
        (download_manifests (ResourceManager.new "app")
          ⟨[("1.20.1", ⟨"1.20.1", "U", "S", "release"⟩)]⟩)
        ⟨fun _ => .ok "BODY", fun _ => "S", fun _ => .ok ⟨"1.20.1"⟩⟩
        ⟨[], [], []⟩ "9.9.9").fst =
      .error (.versionRetrievalError s)) :=
  ⟨(c9_version_not_found_and_not_ready (ResourceManager.new "app")
      ⟨fun _ => .ok "BODY", fun _ => "S", fun _ => .ok ⟨"1.20.1"⟩⟩ ⟨[], [], []⟩ "1.20.1").1 rfl,
   ((c9_version_not_found_and_not_ready
      (download_manifests (ResourceManager.new "app")
        ⟨[("1.20.1", ⟨"1.20.1", "U", "S", "release"⟩)]⟩)
      ⟨fun _ => .ok "BODY", fun _ => "S", fun _ => .ok ⟨"1.20.1"⟩⟩ ⟨[], [], []⟩ "9.9.9").2
      ⟨[("1.20.1", ⟨"1.20.1", "U", "S", "release"⟩)]⟩ rfl).mpr (by decide)⟩

theorem lookup_addFile_ne (fs : Fs) (p contents q : String) (hq : q ≠ p) :
    (addFile fs p contents).files.lookup q = fs.files.lookup q := by
  have h : (q == p) = false := beq_eq_false_iff_ne.mpr hq
  simp [addFile, List.lookup, h]

theorem libraryCallback_frame (hashOf : String → String) (base_dir : String)
    (bytes : String) (it : Item) (fs : Fs) (q : String) (hq : q ≠ itemPath it base_dir) :
    ((libraryCallback hashOf base_dir bytes it fs).snd).files.lookup q =
      fs.files.lookup q := by
  unfold libraryCallback
  split
  · exact lookup_addFile_ne fs (itemPath it base_dir) bytes q hq
  · rfl

theorem download_single_callback_skip (net : String → Except String String)
    (callback : String → Item → Fs → Except DownloadError Unit × Fs)
    (base_dir : String) (item : Item) (fs : Fs)
    (hex : existsPath fs (itemPath item base_dir) = true) :
    download_single_callback net callback base_dir item fs = (⟨.ok (), none, []⟩, fs) := by
  simp [download_single_callback, hex]

theorem download_single_preserves_file (net : String → Except String String)
    (callback : String → Item → Fs → Except DownloadError Unit × Fs)
    (base_dir : String) (item : Item) (fs : Fs) (p b : String)
    (hcb : ∀ (bytes : String) (it : Item) (fs2 : Fs) (q : String), q ≠ itemPath it base_dir →
      ((callback bytes it fs2).snd).files.lookup q = fs2.files.lookup q)
    (hp : fs.files.lookup p = some b) :
    ((download_single_callback net callback base_dir item fs).snd).files.lookup p = some b := by
  simp only [download_single_callback]
  by_cases hex : existsPath fs (itemPath item base_dir) = true
  · rw [if_pos hex]
    exact hp
  · rw [if_neg hex]
    cases hnet : net item.url with
    | error e => exact hp
    | ok bytes =>
      have hpne : p ≠ itemPath item base_dir := by
        intro heq
        rw [heq] at hp
        exact hex (by simp [existsPath, hp])
      exact (hcb bytes item (addDir fs (parentPath (itemPath item base_dir))) p hpne).trans hp

theorem downloadBatchGo_preserves_file (net : String → Except String String)
    (callback : String → Item → Fs → Except DownloadError Unit × Fs) (base_dir : String)
    (hcb : ∀ (bytes : String) (it : Item) (fs2 : Fs) (q : String), q ≠ itemPath it base_dir →
      ((callback bytes it fs2).snd).files.lookup q = fs2.files.lookup q) :
    ∀ (items : List Item) (fs : Fs) (p b : String), fs.files.lookup p = some b →
      ((downloadBatchGo net callback base_dir items fs).snd).files.lookup p = some b := by
  intro items
  induction items with
  | nil => intro fs p b hp; simpa [downloadBatchGo] using hp
  | cons item rest ih =>
    intro fs p b hp
    simp only [downloadBatchGo]
    exact ih _ p b
      (download_single_preserves_file net callback base_dir item fs p b hcb hp)

theorem downloadBatchGo_length (net : String → Except String String)
    (callback : String → Item → Fs → Except DownloadError Unit × Fs) (base_dir : String) :
    ∀ (items : List Item) (fs : Fs),
      (downloadBatchGo net callback base_dir items fs).fst.length = items.length := by
  intro items
  induction items with
  | nil => intro fs; rfl
  | cons item rest ih => intro fs; simp [downloadBatchGo, ih]

theorem downloadBatchGo_skip_at (net : String → Except String String)
    (callback : String → Item → Fs → Except DownloadError Unit × Fs) (base_dir : String)
    (hcb : ∀ (bytes : String) (it : Item) (fs2 : Fs) (q : String), q ≠ itemPath it base_dir →
      ((callback bytes it fs2).snd).files.lookup q = fs2.files.lookup q) :
    ∀ (items : List Item) (i : Nat) (fs : Fs) (b : String) (hi : i < items.length),
      fs.files.lookup (itemPath (items.get ⟨i, hi⟩) base_dir) = some b →
      (downloadBatchGo net callback base_dir items fs).fst.get? i = some ⟨.ok (), none, []⟩ := by
  intro items
  induction items with
  | nil => intro i fs b hi; exact absurd hi (by simp)
  | cons item rest ih =>
    intro i fs b hi hp
    cases i with
    | zero =>
      have hex : existsPath fs (itemPath item base_dir) = true := by
        simp only [List.get] at hp
        simp [existsPath, hp]
      simp [downloadBatchGo, download_single_callback_skip net callback base_dir item fs hex]
    | succ j =>
      simp only [downloadBatchGo]
      have hp2 : ((download_single_callback net callback base_dir item fs).snd).files.lookup
          (itemPath ((item :: rest).get ⟨j + 1, hi⟩) base_dir) = some b :=
        download_single_preserves_file net callback base_dir item fs _ b hcb hp
      simp only [List.get] at hp2
      exact ih j _ b (Nat.lt_of_succ_lt_succ hi) hp2

/-- C6 (confirmed): an item whose destination path already holds bytes
before the batch runs is settled with no events at all — no parent
directory creation, no network fetch, no callback invocation (hence no
hash computation) — and the bytes at that path after the whole batch
are the original ones, provided the verify-and-persist callback only
ever writes to its own item's destination (which every callback in the
source does). -/
theorem c6_existing_destination_untouched (net : String → Except String String)
    (callback : String → Item → Fs → Except DownloadError Unit × Fs)
    (items : List Item) (base_dir : String) (fs0 : Fs) (b : String) (i : Nat)
    (hcb : ∀ (bytes : String) (it : Item) (fs2 : Fs) (q : String), q ≠ itemPath it base_dir →
      ((callback bytes it fs2).snd).files.lookup q = fs2.files.lookup q)
    (hi : i < items.length)
    (hex : fs0.files.lookup (itemPath (items.get ⟨i, hi⟩) base_dir) = some b) :
    ((download_all_callback net callback items base_dir fs0).snd.fst.get? i =
      some ⟨.ok (), none, []⟩) ∧
    ((download_all_callback net callback items base_dir fs0).snd.snd).files.lookup
      (itemPath (items.get ⟨i, hi⟩) base_dir) = some b := by
  constructor
  · exact downloadBatchGo_skip_at net callback base_dir hcb items i fs0 b hi hex
  · exact downloadBatchGo_preserves_file net callback base_dir hcb items fs0 _ b hex

/-- C6 (witness): a single-item batch over a pre-existing file leaves it
untouched and produces the empty event list for it. -/
theorem c6_witness :
    ((download_all_callback (fun _ => .error "offline")
        (libraryCallback (fun _ => "H") "b") [⟨"n", "u", "H", "f.txt"⟩] "b"
        ⟨[("b/f.txt", "X")], [], []⟩).snd.fst.get? 0 = some ⟨.ok (), none, []⟩) ∧
    ((download_all_callback (fun _ => .error "offline")
        (libraryCallback (fun _ => "H") "b") [⟨"n", "u", "H", "f.txt"⟩] "b"
        ⟨[("b/f.txt", "X")], [], []⟩).snd.snd).files.lookup
      (itemPath (([⟨"n", "u", "H", "f.txt"⟩] : List Item).get ⟨0, by decide⟩) "b") =
      some "X" :=
  c6_existing_destination_untouched (fun _ => .error "offline")
    (libraryCallback (fun _ => "H") "b") [⟨"n", "u", "H", "f.txt"⟩] "b"
    ⟨[("b/f.txt", "X")], [], []⟩ "X" 0
    (fun bytes it fs2 q hq => libraryCallback_frame (fun _ => "H") "b" bytes it fs2 q hq)
    (by decide) (by decide)

/-- C7 (confirmed): a download batch always returns Ok after settling
every item (one collected outcome per item, failures included), a
callback failure for one item is recorded in that item's outcome as a
logged error while the item's collected result stays Ok (so it cannot
fail the batch), a hash mismatch produces precisely the dedicated
InvalidFileHashError value, and that constructor is distinct from the
plain network RequestError. -/
theorem c7_batch_isolation_and_hash_signal (net : String → Except String String)
    (callback : String → Item → Fs → Except DownloadError Unit × Fs)
    (items : List Item) (base_dir : String) (fs0 : Fs) :
    ((download_all_callback net callback items base_dir fs0).fst = .ok ()) ∧
    ((download_all_callback net callback items base_dir fs0).snd.fst.length = items.length) ∧
    (∀ (item : Item) (fs : Fs) (bytes : String) (e : DownloadError),
      existsPath fs (itemPath item base_dir) = false →
      net item.url = .ok bytes →
      (callback bytes item (addDir fs (parentPath (itemPath item base_dir)))).fst = .error e →
      ((download_single_callback net callback base_dir item fs).fst.result = .ok () ∧
        (download_single_callback net callback base_dir item fs).fst.loggedErr = some e)) ∧
    (∀ (hashOf : String → String) (bytes : String) (lib : Item) (fs : Fs),
      hashOf bytes ≠ lib.hash →
      (libraryCallback hashOf base_dir bytes lib fs).fst =
        .error (.invalidFileHashError ("Error downloading " ++ lib.url ++ ", invalid hash."))) ∧
    (∀ s e : String,
      DownloadError.invalidFileHashError s ≠ DownloadError.requestError e) := by
  refine ⟨rfl, downloadBatchGo_length net callback base_dir items fs0, ?_, ?_, ?_⟩
  · intro item fs bytes e hex hnet hcberr
    simp only [download_single_callback]
    rw [if_neg (by simp [hex])]
    cases hnet2 : net item.url with
    | error e2 => rw [hnet] at hnet2; exact absurd hnet2 (by simp)
    | ok bytes2 =>
      rw [hnet] at hnet2
      cases hnet2
      constructor
      · rfl
      · simp [hcberr]
  · intro hashOf bytes lib fs h
    simp [libraryCallback, h]
  · intro s e h
    exact DownloadError.noConfusion h

/-- C7 (witness): a one-item batch whose bytes hash to H but whose item
expects EXPECTED returns Ok for the batch, collects one outcome, and
logs the InvalidFileHashError for the item. -/
theorem c7_witness :
    ((download_all_callback (fun _ => .ok "BYTES") (libraryCallback (fun _ => "H") "b")
        [⟨"n", "u", "EXPECTED", "f.txt"⟩] "b" ⟨[], [], []⟩).fst = .ok ()) ∧
    ((download_all_callback (fun _ => .ok "BYTES") (libraryCallback (fun _ => "H") "b")
        [⟨"n", "u", "EXPECTED", "f.txt"⟩] "b" ⟨[], [], []⟩).snd.fst.length = 1) ∧
    ((download_single_callback (fun _ => .ok "BYTES") (libraryCallback (fun _ => "H") "b")
        "b" ⟨"n", "u", "EXPECTED", "f.txt"⟩ ⟨[], [], []⟩).fst.result = .ok ()) ∧
    ((download_single_callback (fun _ => .ok "BYTES") (libraryCallback (fun _ => "H") "b")
        "b" ⟨"n", "u", "EXPECTED", "f.txt"⟩ ⟨[], [], []⟩).fst.loggedErr =
      some (.invalidFileHashError "Error downloading u, invalid hash.")) :=
  have h := c7_batch_isolation_and_hash_signal (fun _ => .ok "BYTES")
    (libraryCallback (fun _ => "H") "b") [⟨"n", "u", "EXPECTED", "f.txt"⟩] "b" ⟨[], [], []⟩
  have hsingle := h.2.2.1 ⟨"n", "u", "EXPECTED", "f.txt"⟩ ⟨[], [], []⟩ "BYTES"
    (.invalidFileHashError "Error downloading u, invalid hash.")
    (by decide) rfl (by decide)
  ⟨h.1, h.2.1, hsingle.1, hsingle.2⟩

theorem existsPath_addFile (fs : Fs) (p c q : String) (h : existsPath fs q = true) :
    existsPath (addFile fs p c) q = true := by
  simp only [existsPath, addFile, List.lookup, Bool.or_eq_true] at *
  cases hqp : q == p with
  | true => simp
  | false =>
    rcases h with h | h
    · exact Or.inl (by simpa [hqp] using h)
    · exact Or.inr h

theorem existsPath_addDir (fs : Fs) (p q : String) (h : existsPath fs q = true) :
    existsPath (addDir fs p) q = true := by
  simp only [existsPath, addDir, Bool.or_eq_true, List.contains_cons] at *
  tauto

theorem existsPath_addLink (fs : Fs) (p q : String) (h : existsPath fs q = true) :
    existsPath (addLink fs p) q = true := by
  simp only [existsPath, addLink, Bool.or_eq_true, List.contains_cons] at *
  tauto

theorem existsPath_javaFileCallback (hashOf : String → String) (base_path : String)
    (bytes : String) (jrt : Item) (fs : Fs) (q : String) (h : existsPath fs q = true) :
    existsPath ((javaFileCallback hashOf base_path bytes jrt fs).snd) q = true := by
  unfold javaFileCallback
  split
  · exact existsPath_addFile fs (itemPath jrt base_path) bytes q h
  · exact h

theorem existsPath_download_single_callback (net : String → Except String String)
    (callback : String → Item → Fs → Except DownloadError Unit × Fs)
    (base_dir : String) (item : Item) (fs : Fs) (q : String)
    (hcb : ∀ (bytes : String) (it : Item) (fs2 : Fs), existsPath fs2 q = true →
      existsPath ((callback bytes it fs2).snd) q = true)
    (h : existsPath fs q = true) :
    existsPath ((download_single_callback net callback base_dir item fs).snd) q = true := by
  simp only [download_single_callback]
  by_cases hex : existsPath fs (itemPath item base_dir) = true
  · rw [if_pos hex]
    exact h
  · rw [if_neg hex]
    cases net item.url with
    | error e => exact existsPath_addDir fs (parentPath (itemPath item base_dir)) q h
    | ok bytes =>
      exact hcb bytes item (addDir fs (parentPath (itemPath item base_dir)))
        (existsPath_addDir fs (parentPath (itemPath item base_dir)) q h)

theorem existsPath_downloadBatchGo (net : String → Except String String)
    (callback : String → Item → Fs → Except DownloadError Unit × Fs)
    (base_dir : String) (q : String)
    (hcb : ∀ (bytes : String) (it : Item) (fs2 : Fs), existsPath fs2 q = true →
      existsPath ((callback bytes it fs2).snd) q = true) :
    ∀ (items : List Item) (fs : Fs), existsPath fs q = true →
      existsPath ((downloadBatchGo net callback base_dir items fs).snd) q = true := by
  intro items
  induction items with
  | nil => intro fs h; exact h
  | cons item rest ih =>
    intro fs h
    exact ih _ (existsPath_download_single_callback net callback base_dir item fs q hcb h)

theorem existsPath_pass1Partition (base_path : String) :
    ∀ (entries : List JavaRuntimeType) (fs : Fs) (q : String), existsPath fs q = true →
      existsPath ((pass1Partition base_path entries fs).snd.snd.snd) q = true := by
  intro entries
  induction entries with
  | nil => intro fs q h; exact h
  | cons jrt rest ih =>
    intro fs q h
    cases jrt with
    | file f e => exact ih fs q h
    | directory d => exact ih _ q (existsPath_addDir fs (pathJoin base_path d) q h)
    | link p t => exact ih fs q h

theorem pass1Partition_events_rank (base_path : String) :
    ∀ (entries : List JavaRuntimeType) (fs : Fs) (e : FsEvent),
      e ∈ (pass1Partition base_path entries fs).fst → eventRank e = 0 := by
  intro entries
  induction entries with
  | nil => intro fs e he; exact absurd he (by simp [pass1Partition])
  | cons jrt rest ih =>
    intro fs e he
    cases jrt with
    | file f ex => exact ih fs e he
    | directory d =>
      simp only [pass1Partition, List.mem_cons] at he
      rcases he with rfl | he
      · rfl
      · exact ih _ e he
    | link p t => exact ih fs e he

theorem download_single_callback_events_rank (net : String → Except String String)
    (callback : String → Item → Fs → Except DownloadError Unit × Fs)
    (base_dir : String) (item : Item) (fs : Fs) (e : FsEvent)
    (he : e ∈ (download_single_callback net callback base_dir item fs).fst.events) :
    eventRank e = 1 := by
  simp only [download_single_callback] at he
  by_cases hex : existsPath fs (itemPath item base_dir) = true
  · rw [if_pos hex] at he
    exact absurd he (by simp)
  · rw [if_neg hex] at he
    cases hnet : net item.url with
    | error e2 =>
      rw [hnet] at he
      rcases List.mem_cons.mp he with rfl | he2
      · rfl
      · rcases List.mem_cons.mp he2 with rfl | he3
        · rfl
        · exact absurd he3 (List.not_mem_nil e)
    | ok bytes =>
      rw [hnet] at he
      rcases List.mem_cons.mp he with rfl | he2
      · rfl
      · rcases List.mem_cons.mp he2 with rfl | he3
        · rfl
        · rcases List.mem_cons.mp he3 with rfl | he4
          · rfl
          · exact absurd he4 (List.not_mem_nil e)

theorem downloadBatchGo_events_rank (net : String → Except String String)
    (callback : String → Item → Fs → Except DownloadError Unit × Fs)
    (base_dir : String) :
    ∀ (items : List Item) (fs : Fs) (e : FsEvent),
      e ∈ ((downloadBatchGo net callback base_dir items fs).fst.map
        (fun o => o.events)).flatten → eventRank e = 1 := by
  intro items
  induction items with
  | nil => intro fs e he; exact absurd he (by simp [downloadBatchGo])
  | cons item rest ih =>
    intro fs e he
    simp only [downloadBatchGo, List.map_cons, List.flatten_cons, List.mem_append] at he
    rcases he with he | he
    · exact download_single_callback_events_rank net callback base_dir item fs e he
    · exact ih _ e he

theorem linksPass_events_rank (canonicalize : Fs → String → Except String String)
    (base_path : String) :
    ∀ (links : List (String × String)) (fs : Fs) (e : FsEvent),
      e ∈ (linksPass canonicalize base_path links fs).snd.fst → eventRank e = 2 := by
  intro links
  induction links with
  | nil => intro fs e he; exact absurd he (by simp [linksPass])
  | cons lk rest ih =>
    intro fs e he
    simp only [linksPass] at he
    by_cases hex : existsPath fs (pathJoin base_path lk.fst) = true
    · rw [if_pos hex] at he
      exact ih fs e he
    · rw [if_neg hex] at he
      cases hc : canonicalize fs (pathJoin (parentPath (pathJoin base_path lk.fst)) lk.snd) with
      | error e2 =>
        rw [hc] at he
        exact absurd he (List.not_mem_nil e)
      | ok src =>
        rw [hc] at he
        rcases List.mem_cons.mp he with rfl | he2
        · rfl
        · exact ih _ e he2

theorem linksPass_skips_existing (canonicalize : Fs → String → Except String String)
    (base_path : String) :
    ∀ (links : List (String × String)) (fs : Fs) (d : String),
      existsPath fs d = true → ∀ src : String,
      FsEvent.linkCreated src d ∉ (linksPass canonicalize base_path links fs).snd.fst := by
  intro links
  induction links with
  | nil => intro fs d hd src; simp [linksPass]
  | cons lk rest ih =>
    intro fs d hd src
    simp only [linksPass]
    by_cases hex : existsPath fs (pathJoin base_path lk.fst) = true
    · rw [if_pos hex]
      exact ih fs d hd src
    · rw [if_neg hex]
      cases canonicalize fs (pathJoin (parentPath (pathJoin base_path lk.fst)) lk.snd) with
      | error e => exact List.not_mem_nil _
      | ok src2 =>
        intro hmem
        rcases List.mem_cons.mp hmem with heq | hmem2
        · injection heq with h1 h2
          subst h2
          exact hex hd
        · exact ih (addLink fs (pathJoin base_path lk.fst)) d
            (existsPath_addLink fs (pathJoin base_path lk.fst) d hd) src hmem2

theorem pairwise_rank_const (l : List FsEvent) (c : Nat)
    (h : ∀ e ∈ l, eventRank e = c) :
    l.Pairwise (fun a b => eventRank a ≤ eventRank b) := by
  induction l with
  | nil => exact List.Pairwise.nil
  | cons a rest ih =>
    refine List.Pairwise.cons ?_ (ih (fun e he => h e (List.mem_cons_of_mem a he)))
    intro b hb
    rw [h a (List.mem_cons_self a rest), h b (List.mem_cons_of_mem a hb)]

theorem pairwise_rank_three (l1 l2 l3 : List FsEvent)
    (h1 : ∀ e ∈ l1, eventRank e = 0) (h2 : ∀ e ∈ l2, eventRank e = 1)
    (h3 : ∀ e ∈ l3, eventRank e = 2) :
    (l1 ++ l2 ++ l3).Pairwise (fun a b => eventRank a ≤ eventRank b) := by
  rw [List.pairwise_append, List.pairwise_append]
  refine ⟨⟨pairwise_rank_const l1 0 h1, pairwise_rank_const l2 1 h2, ?_⟩,
    pairwise_rank_const l3 2 h3, ?_⟩
  · intro a ha b hb
    rw [h1 a ha, h2 b hb]
    omega
  · intro a ha b hb
    rw [h3 b hb]
    simp only [List.mem_append] at ha
    rcases ha with ha | ha
    · rw [h1 a ha]; omega
    · rw [h2 a ha]; omega

/-- C8 (confirmed): for every runtime manifest entry list, the event trace
of download_java_from_runtime_manifest is ordered by phase — every
Directory entry creation (rank 0) precedes every file download/write
(rank 1), which precedes every link creation (rank 2) — and a Link entry
whose destination path already exists before materialization produces no
link-creation event at all. -/
theorem c8_runtime_materialization_order (net : String → Except String String)
    (hashOf : String → String) (canonicalize : Fs → String → Except String String)
    (entries : List JavaRuntimeType) (java_dir : String) (manifest : JavaRuntime)
    (fs0 : Fs) :
    (((download_java_from_runtime_manifest net hashOf canonicalize (.ok entries) java_dir
        manifest fs0).snd.fst).Pairwise (fun a b => eventRank a ≤ eventRank b)) ∧
    (∀ (p t src : String), (p, t) ∈ linksOfEntries entries →
      existsPath fs0 (pathJoin (pathJoin java_dir manifest.version_name) p) = true →
      FsEvent.linkCreated src (pathJoin (pathJoin java_dir manifest.version_name) p) ∉
        (download_java_from_runtime_manifest net hashOf canonicalize (.ok entries) java_dir
          manifest fs0).snd.fst) := by
  constructor
  · simp only [download_java_from_runtime_manifest, download_all_callback]
    refine pairwise_rank_three _ _ _ ?_ ?_ ?_
    · intro e he
      exact pass1Partition_events_rank (pathJoin java_dir manifest.version_name) entries
        fs0 e he
    · intro e he
      exact downloadBatchGo_events_rank net
        (javaFileCallback hashOf (pathJoin java_dir manifest.version_name))
        (pathJoin java_dir manifest.version_name) _ _ e he
    · intro e he
      exact linksPass_events_rank canonicalize (pathJoin java_dir manifest.version_name)
        _ _ e he
  · intro p t src hmem hex
    simp only [download_java_from_runtime_manifest, download_all_callback,
      List.mem_append, not_or]
    refine ⟨⟨?_, ?_⟩, ?_⟩
    · intro hm
      have h0 := pass1Partition_events_rank (pathJoin java_dir manifest.version_name)
        entries fs0 _ hm
      simp [eventRank] at h0
    · intro hm
      have h1 := downloadBatchGo_events_rank net
        (javaFileCallback hashOf (pathJoin java_dir manifest.version_name))
        (pathJoin java_dir manifest.version_name) _ _ _ hm
      simp [eventRank] at h1
    · exact linksPass_skips_existing canonicalize (pathJoin java_dir manifest.version_name)
        _ _ _
        (existsPath_downloadBatchGo net
          (javaFileCallback hashOf (pathJoin java_dir manifest.version_name))
          (pathJoin java_dir manifest.version_name) _
          (fun bytes it fs2 hh => existsPath_javaFileCallback hashOf
            (pathJoin java_dir manifest.version_name) bytes it fs2 _ hh)
          _ _
          (existsPath_pass1Partition (pathJoin java_dir manifest.version_name) entries
            fs0 _ hex))
        src

/-- C8 (witness): the spec scenario — directory bin, file bin/java, link
bin/javac — extended with a link whose destination already exists: the
concrete trace is phase-ordered and contains no creation event for the
pre-existing link destination. -/
theorem c8_runtime_materialization_witness :
    (((download_java_from_runtime_manifest (fun _ => .ok "B") (fun _ => "H")
        (fun _ q => .ok q)
        (.ok [JavaRuntimeType.directory "bin",
          JavaRuntimeType.file ⟨"bin/java", "u", "H", "bin/java"⟩ true,
          JavaRuntimeType.link "bin/javac" "bin/java",
          JavaRuntimeType.link "exists.txt" "bin/java"])
        "java" ⟨⟨"mu", "mh"⟩, "jdk"⟩
        ⟨[("java/jdk/exists.txt", "X")], [], []⟩).snd.fst).Pairwise
      (fun a b => eventRank a ≤ eventRank b)) ∧
    (FsEvent.linkCreated "S" (pathJoin (pathJoin "java" "jdk") "exists.txt") ∉
      (download_java_from_runtime_manifest (fun _ => .ok "B") (fun _ => "H")
        (fun _ q => .ok q)
        (.ok [JavaRuntimeType.directory "bin",
          JavaRuntimeType.file ⟨"bin/java", "u", "H", "bin/java"⟩ true,
          JavaRuntimeType.link "bin/javac" "bin/java",
          JavaRuntimeType.link "exists.txt" "bin/java"])
        "java" ⟨⟨"mu", "mh"⟩, "jdk"⟩
        ⟨[("java/jdk/exists.txt", "X")], [], []⟩).snd.fst) :=
  have h := c8_runtime_materialization_order (fun _ => .ok "B") (fun _ => "H")
    (fun _ q => .ok q)
    [JavaRuntimeType.directory "bin",
      JavaRuntimeType.file ⟨"bin/java", "u", "H", "bin/java"⟩ true,
      JavaRuntimeType.link "bin/javac" "bin/java",
      JavaRuntimeType.link "exists.txt" "bin/java"]
    "java" ⟨⟨"mu", "mh"⟩, "jdk"⟩ ⟨[("java/jdk/exists.txt", "X")], [], []⟩
  ⟨h.1, h.2 "exists.txt" "bin/java" "S" (by decide) (by decide)⟩
